import Mathlib

/-!
Verification development for the `claude-debug-mode` repository.

The only executable logic in the repository is `src/scripts/debug-server.js`,
a Node.js HTTP server with four routes (`POST /debug`, `GET /health`,
`GET /logs`, `POST /clear`) backed by an append-only NDJSON file and an
in-memory counter.  This file shallowly embeds that server in Lean:

* JSON values are modelled by the inductive `Json`; numbers are modelled as
  integers (`Int`) since every number the server itself manipulates
  (`Date.now()`, `logCount`, the port) is an integer.  JSON floating point
  literals are outside the model.
* JavaScript objects are association lists in insertion order with unique
  keys; property read is `lookupField`, property assignment is `setField`
  (update in place when the key exists, append otherwise), matching JS
  semantics.  (JavaScript additionally reorders integer-like keys on
  serialization; no field of the server's data model is integer-like, so
  insertion order is kept.)
* `JSON.stringify` is modelled by `serialize`, `JSON.parse` by `jsonParse`
  (a fuel-based recursive-descent parser restricted to integer numerals and
  non-surrogate code points).
* The request handler (the closure given to `http.createServer`) is
  `handleRequest`.  Its effect inputs - the two `Date.now()` calls, the
  `Math.random()` suffix, and whether the synchronous file write succeeds -
  are explicit parameters.  A file-write failure inside the `try` of
  `POST /debug` is caught (the `catch` answers 400); a failure inside
  `POST /clear` is uncaught and kills the process, modelled by
  `HandlerResult.crash`.
-/

/-- A JSON value, as produced by `JSON.parse` in the server.  Numbers are
restricted to integers (see the header comment). -/
inductive Json where
  | null : Json
  | bool (b : Bool) : Json
  | num (n : Int) : Json
  | str (s : String) : Json
  | arr (items : List Json) : Json
  | obj (fields : List (String × Json)) : Json

/-- Property read `o[k]` on a JS object: the value at the first binding of
`k`, or `none` (JS `undefined`) when the key is absent. -/
def lookupField (fields : List (String × Json)) (k : String) : Option Json :=
  match fields with
  | [] => none
  | (k2, v) :: rest => if k2 = k then some v else lookupField rest k

/-- Property assignment `o[k] = v` on a JS object: overwrite in place when
the key exists (keeping its position), append otherwise. -/
def setField (fields : List (String × Json)) (k : String) (v : Json) :
    List (String × Json) :=
  match fields with
  | [] => [(k, v)]
  | (k2, v2) :: rest =>
      if k2 = k then (k2, v) :: rest else (k2, v2) :: setField rest k v

/-- JavaScript truthiness of a JSON value (`data.id || ...` in the server):
`null`, `false`, `0` and the empty string are falsy, everything else truthy. -/
def truthy (v : Json) : Bool :=
  match v with
  | .null => false
  | .bool b => b
  | .num n => n != 0
  | .str s => s != ""
  | .arr _ => true
  | .obj _ => true

/-- Decimal digits of `n` (most significant first), empty for `0`;
helper for rendering numbers the way `JSON.stringify` does. -/
def natDigitsAux (fuel n : Nat) : List Char :=
  match fuel with
  | 0 => []
  | fuel + 1 =>
      if n = 0 then [] else natDigitsAux fuel (n / 10) ++ [Nat.digitChar (n % 10)]

/-- Decimal rendering of a natural number. -/
def natRepr (n : Nat) : String :=
  if n = 0 then "0" else ⟨natDigitsAux (n + 1) n⟩

/-- Decimal rendering of an integer, as `JSON.stringify` and template
interpolation render integral JS numbers. -/
def intRepr (n : Int) : String :=
  if n < 0 then "-" ++ natRepr n.natAbs else natRepr n.natAbs

/-- Escape of one character inside a JSON string literal, following
`JSON.stringify`: the two-character escapes for quote, backslash and the
common control characters, `\u00xx` for the remaining control characters,
and the character itself otherwise. -/
def escapeChar (c : Char) : List Char :=
  if c = '"' then ['\\', '"']
  else if c = '\\' then ['\\', '\\']
  else if c = '\n' then ['\\', 'n']
  else if c = '\r' then ['\\', 'r']
  else if c = '\t' then ['\\', 't']
  else if c = '\x08' then ['\\', 'b']
  else if c = '\x0c' then ['\\', 'f']
  else if c.toNat < 0x20 then
    ['\\', 'u', '0', '0', Nat.digitChar (c.toNat / 16), Nat.digitChar (c.toNat % 16)]
  else [c]

/-- A JSON string literal for `s`, quotes included, as `JSON.stringify`
renders it. -/
def quoteStr (s : String) : String :=
  ⟨'"' :: (s.data.map escapeChar).flatten ++ ['"']⟩

mutual

/-- Model of `JSON.stringify` on the modelled JSON values (compact form, no spaces,
fields in insertion order). -/
def serialize : Json → String
  | .null => "null"
  | .bool b => if b then "true" else "false"
  | .num n => intRepr n
  | .str s => quoteStr s
  | .arr items => "[" ++ serializeItems items ++ "]"
  | .obj fields => "\x7b" ++ serializeMembers fields ++ "\x7d"

/-- Comma-separated serialization of array items. -/
def serializeItems : List Json → String
  | [] => ""
  | [v] => serialize v
  | v :: rest => serialize v ++ "," ++ serializeItems rest

/-- Comma-separated serialization of object members. -/
def serializeMembers : List (String × Json) → String
  | [] => ""
  | [(k, v)] => quoteStr k ++ ":" ++ serialize v
  | (k, v) :: rest => quoteStr k ++ ":" ++ serialize v ++ "," ++ serializeMembers rest

end

/-- JSON insignificant whitespace. -/
def isWsChar (c : Char) : Bool :=
  c = ' ' || c = '\n' || c = '\r' || c = '\t'

/-- Drop leading JSON whitespace. -/
def skipWs : List Char → List Char
  | [] => []
  | c :: cs => if isWsChar c then skipWs cs else c :: cs

/-- Value of a hexadecimal digit, `none` for other characters. -/
def hexVal (c : Char) : Option Nat :=
  if '0' ≤ c ∧ c ≤ '9' then some (c.toNat - '0'.toNat)
  else if 'a' ≤ c ∧ c ≤ 'f' then some (c.toNat - 'a'.toNat + 10)
  else if 'A' ≤ c ∧ c ≤ 'F' then some (c.toNat - 'A'.toNat + 10)
  else none

/-- Split off the leading run of decimal digits. -/
def spanDigits : List Char → List Char × List Char
  | [] => ([], [])
  | c :: cs =>
      if c.isDigit then
        let (ds, rest) := spanDigits cs
        (c :: ds, rest)
      else ([], c :: cs)

/-- Numeric value of a digit run (most significant first). -/
def digitsToNat (acc : Nat) : List Char → Nat
  | [] => acc
  | c :: cs => digitsToNat (acc * 10 + (c.toNat - '0'.toNat)) cs

/-- Parse a JSON integer numeral: optional minus sign, then digits with no
redundant leading zero.  Inputs with a fraction or exponent part are
rejected here although `JSON.parse` accepts them: the model restricts JSON
numbers to integers (see the header comment). -/
def parseNumber (cs : List Char) : Option (Int × List Char) :=
  let (neg, cs2) :=
    match cs with
    | '-' :: rest => (true, rest)
    | _ => (false, cs)
  match spanDigits cs2 with
  | ([], _) => none
  | (d :: ds, rest) =>
      if d = '0' ∧ ds ≠ [] then none
      else
        match rest with
        | '.' :: _ => none
        | 'e' :: _ => none
        | 'E' :: _ => none
        | _ =>
            let n : Int := Int.ofNat (digitsToNat 0 (d :: ds))
            some (if neg then -n else n, rest)

/-- Parse the remainder of a JSON string literal (the opening quote already
consumed), decoding the escape sequences `JSON.parse` accepts.  `\u` escapes
naming UTF-16 surrogates are rejected: the model's characters are Unicode
scalar values. -/
def parseStrChars (fuel : Nat) (cs : List Char) : Option (List Char × List Char) :=
  match fuel with
  | 0 => none
  | fuel + 1 =>
      match cs with
      | [] => none
      | '"' :: rest => some ([], rest)
      | '\\' :: e :: rest =>
          let cont := fun (c : Char) (r : List Char) =>
            (parseStrChars fuel r).map fun (s, r2) => (c :: s, r2)
          if e = '"' then cont '"' rest
          else if e = '\\' then cont '\\' rest
          else if e = '/' then cont '/' rest
          else if e = 'n' then cont '\n' rest
          else if e = 't' then cont '\t' rest
          else if e = 'r' then cont '\r' rest
          else if e = 'b' then cont '\x08' rest
          else if e = 'f' then cont '\x0c' rest
          else if e = 'u' then
            match rest with
            | h1 :: h2 :: h3 :: h4 :: rest2 =>
                match hexVal h1, hexVal h2, hexVal h3, hexVal h4 with
                | some a, some b, some c2, some d =>
                    let code := ((a * 16 + b) * 16 + c2) * 16 + d
                    if code < 0xd800 then cont (Char.ofNat code) rest2 else none
                | _, _, _, _ => none
            | _ => none
          else none
      | c :: rest =>
          if c.toNat < 0x20 then none
          else (parseStrChars fuel rest).map fun (s, r2) => (c :: s, r2)

mutual

/-- Parse one JSON value (fuel-based recursive descent); models
`JSON.parse` together with `jsonParse`. -/
def parseVal (fuel : Nat) (cs : List Char) : Option (Json × List Char) :=
  match fuel with
  | 0 => none
  | fuel + 1 =>
      match skipWs cs with
      | [] => none
      | c :: cs2 =>
          if c = 'n' then
            match cs2 with
            | 'u' :: 'l' :: 'l' :: rest => some (.null, rest)
            | _ => none
          else if c = 't' then
            match cs2 with
            | 'r' :: 'u' :: 'e' :: rest => some (.bool true, rest)
            | _ => none
          else if c = 'f' then
            match cs2 with
            | 'a' :: 'l' :: 's' :: 'e' :: rest => some (.bool false, rest)
            | _ => none
          else if c = '"' then
            (parseStrChars (cs2.length + 1) cs2).map fun (s, rest) => (.str ⟨s⟩, rest)
          else if c = '[' then
            match skipWs cs2 with
            | ']' :: rest => some (.arr [], rest)
            | cs3 => (parseItems fuel cs3).map fun (vs, rest) => (.arr vs, rest)
          else if c = '\x7b' then
            match skipWs cs2 with
            | '\x7d' :: rest => some (.obj [], rest)
            | cs3 => (parseMembers fuel cs3).map fun (fs, rest) => (.obj fs, rest)
          else
            (parseNumber (c :: cs2)).map fun (n, rest) => (.num n, rest)

/-- Parse the comma-separated items of a non-empty JSON array up to the
closing bracket. -/
def parseItems (fuel : Nat) (cs : List Char) : Option (List Json × List Char) :=
  match fuel with
  | 0 => none
  | fuel + 1 =>
      match parseVal fuel cs with
      | none => none
      | some (v, rest) =>
          match skipWs rest with
          | ',' :: rest2 => (parseItems fuel rest2).map fun (vs, r) => (v :: vs, r)
          | ']' :: rest2 => some ([v], rest2)
          | _ => none

/-- Parse the comma-separated members of a non-empty JSON object up to the
closing brace. -/
def parseMembers (fuel : Nat) (cs : List Char) :
    Option (List (String × Json) × List Char) :=
  match fuel with
  | 0 => none
  | fuel + 1 =>
      match skipWs cs with
      | '"' :: cs2 =>
          match parseStrChars (cs2.length + 1) cs2 with
          | none => none
          | some (k, rest) =>
              match skipWs rest with
              | ':' :: rest2 =>
                  match parseVal fuel rest2 with
                  | none => none
                  | some (v, rest3) =>
                      match skipWs rest3 with
                      | ',' :: rest4 =>
                          (parseMembers fuel rest4).map
                            fun (fs, r) => ((⟨k⟩, v) :: fs, r)
                      | '\x7d' :: rest4 => some ([(⟨k⟩, v)], rest4)
                      | _ => none
              | _ => none
      | _ => none

end

/-- Collapse duplicate object keys the way building a JS object literal
does: later members overwrite earlier ones in place. -/
def dedupFields (pairs : List (String × Json)) : List (String × Json) :=
  pairs.foldl (fun acc kv => setField acc kv.1 kv.2) []

mutual

/-- Rebuild every object's field list with duplicate keys collapsed,
so that parsed objects have the unique-key property JS objects have. -/
def dedupJson : Json → Json
  | .null => .null
  | .bool b => .bool b
  | .num n => .num n
  | .str s => .str s
  | .arr items => .arr (dedupList items)
  | .obj fields => .obj (dedupFields (dedupMembers fields))

/-- Apply `dedupJson` to every item of a list. -/
def dedupList : List Json → List Json
  | [] => []
  | v :: rest => dedupJson v :: dedupList rest

/-- Apply `dedupJson` to every value of an association list. -/
def dedupMembers : List (String × Json) → List (String × Json)
  | [] => []
  | (k, v) :: rest => (k, dedupJson v) :: dedupMembers rest

end

/-- Model of `JSON.parse`: parse one value, allow trailing whitespace only, and
collapse duplicate object keys (last one wins, position of the first). -/
def jsonParse (s : String) : Option Json :=
  match parseVal (s.data.length + 1) s.data with
  | some (v, rest) => if skipWs rest = [] then some (dedupJson v) else none
  | none => none

/-- The server-generated id
`` log_${Date.now()}_${Math.random().toString(36).slice(2, 6)} ``:
`idTime` is the value of that `Date.now()` call and `rand` the sliced
base-36 fragment of `Math.random()`. -/
def genId (idTime : Int) (rand : String) : String :=
  "log_" ++ intRepr idTime ++ "_" ++ rand

/-- Effect of `data.id = data.id || genId(...)` on an object payload: the
`id` field is kept when present and truthy, otherwise assigned the generated
id (in place when the key exists but is falsy, appended when absent). -/
def idAdjusted (fields : List (String × Json)) (idTime : Int) (rand : String) :
    List (String × Json) :=
  match lookupField fields "id" with
  | some idv =>
      if truthy idv then fields
      else setField fields "id" (.str (genId idTime rand))
  | none => setField fields "id" (.str (genId idTime rand))

/-- The field list persisted for an object payload: the `id` adjustment
followed by `data.serverTimestamp = Date.now()`. -/
def ingestEntry (fields : List (String × Json)) (idTime : Int) (rand : String)
    (ts : Int) : List (String × Json) :=
  setField (idAdjusted fields idTime rand) "serverTimestamp" (.num ts)

/-- The metadata step of the `POST /debug` handler on the parsed body:
`data.id = data.id || genId; data.serverTimestamp = Date.now()`.
On `null` the first property access throws a `TypeError` (`none` here).
On objects it yields `ingestEntry`.  On the remaining values the
assignments are silent no-ops as far as `JSON.stringify` output goes:
on numbers, strings and booleans a sloppy-mode property write does
nothing, and on arrays the named properties are ignored by
`JSON.stringify`. -/
def applyMeta (v : Json) (idTime : Int) (rand : String) (ts : Int) : Option Json :=
  match v with
  | .null => none
  | .obj fields => some (.obj (ingestEntry fields idTime rand ts))
  | other => some other

/-- An HTTP request as the handler sees it: `req.method`, `req.url` (path
including any query string), and the accumulated body text. -/
structure Request where
  method : String
  url : String
  body : String

/-- An HTTP response: status code, headers set on it, body text. -/
structure Response where
  status : Nat
  headers : List (String × String)
  body : String

/-- The server's mutable state: the log file contents and the in-memory
`logCount` counter. -/
structure ServerState where
  file : String
  logCount : Nat

/-- Outcome of one request: a response together with the state left behind,
or an uncaught exception escaping the handler (which kills the Node.js
process). -/
inductive HandlerResult where
  | ok (resp : Response) (st : ServerState)
  | crash (st : ServerState)

/-- The three CORS headers set on every response before routing. -/
def corsHeaders : List (String × String) :=
  [("Access-Control-Allow-Origin", "*"),
   ("Access-Control-Allow-Methods", "GET, POST, OPTIONS"),
   ("Access-Control-Allow-Headers", "Content-Type")]

/-- Body of the `GET /health` response:
`JSON.stringify({ status: 'ok', logCount, port: PORT })`. -/
def healthBody (port : Int) (logCount : Nat) : String :=
  serialize (.obj [("status", .str "ok"), ("logCount", .num logCount),
                   ("port", .num port)])

/-- The request handler (the closure passed to `http.createServer`),
with the routing checks in source order.  Effect inputs: `idTime` and `ts`
are the two `Date.now()` calls of the `POST /debug` handler, `rand` the
`Math.random()` fragment, and `writeOk` tells whether a synchronous file
write (`fs.appendFileSync` / `fs.writeFileSync`) performed by this call
succeeds.  A failing write throws: inside `POST /debug` the `try`/`catch`
turns it into the 400 answer; inside `POST /clear` there is no handler and
the exception escapes (`crash`).  The `GET /logs` read of the in-memory
file string cannot fail in the model (its `try`/`catch` with a 500 answer
is therefore not reachable here). -/
def handleRequest (port : Int) (st : ServerState) (req : Request)
    (idTime : Int) (rand : String) (ts : Int) (writeOk : Bool) : HandlerResult :=
  if req.method = "OPTIONS" then
    .ok ⟨204, corsHeaders, ""⟩ st
  else if req.url = "/health" then
    .ok ⟨200, corsHeaders ++ [("Content-Type", "application/json")],
         healthBody port st.logCount⟩ st
  else if req.url = "/logs" ∧ req.method = "GET" then
    .ok ⟨200, corsHeaders ++ [("Content-Type", "application/x-ndjson")],
         st.file⟩ st
  else if req.url = "/clear" ∧ req.method = "POST" then
    if writeOk then .ok ⟨200, corsHeaders, "Logs cleared"⟩ ⟨"", 0⟩
    else .crash st
  else if req.url = "/debug" ∧ req.method = "POST" then
    match jsonParse req.body with
    | none => .ok ⟨400, corsHeaders, "Invalid JSON"⟩ st
    | some v =>
        match applyMeta v idTime rand ts with
        | none => .ok ⟨400, corsHeaders, "Invalid JSON"⟩ st
        | some d =>
            if writeOk then
              .ok ⟨200, corsHeaders, "ok"⟩
                 ⟨st.file ++ serialize d ++ "\n", st.logCount + 1⟩
            else .ok ⟨400, corsHeaders, "Invalid JSON"⟩ st
  else
    .ok ⟨404, corsHeaders, "Not found"⟩ st

/-- Server startup: `fs.writeFileSync(LOG_FILE, '')` truncates whatever the
log file held before, and `logCount` starts at `0`.  The argument is the
pre-existing file content, which is discarded. -/
def startup (_preexisting : String) : ServerState :=
  ⟨"", 0⟩

/-- The state the server starts in. -/
def initState : ServerState := startup ""

/-- One request together with its effect inputs. -/
structure Event where
  req : Request
  idTime : Int
  rand : String
  ts : Int
  writeOk : Bool

/-- State after one request (on a crash the file keeps the content it had,
the process is simply gone). -/
def stepState (port : Int) (st : ServerState) (e : Event) : ServerState :=
  match handleRequest port st e.req e.idTime e.rand e.ts e.writeOk with
  | .ok _ st2 => st2
  | .crash st2 => st2

/-- State after a sequence of requests. -/
def execEvents (port : Int) (st : ServerState) (es : List Event) : ServerState :=
  es.foldl (stepState port) st

/-- The file content holding exactly the given JSON values, one serialized
value per `\n`-terminated line: the shape every reachable log file has. -/
def ndjsonOf : List Json → String
  | [] => ""
  | v :: vs => serialize v ++ "\n" ++ ndjsonOf vs

/-- Split a character list at every newline; the result always has one more
entry than there are newlines (a trailing newline yields a final empty
line). -/
def splitLines (cs : List Char) : List (List Char) :=
  match cs with
  | [] => [[]]
  | c :: rest =>
      if c = '\n' then [] :: splitLines rest
      else
        match splitLines rest with
        | [] => [[c]]
        | l :: ls => (c :: l) :: ls

theorem lookupField_setField_same (fields : List (String × Json)) (k : String)
    (v : Json) : lookupField (setField fields k v) k = some v := by
  induction fields with
  | nil => simp [setField, lookupField]
  | cons kv rest ih =>
      obtain ⟨k2, v2⟩ := kv
      by_cases h : k2 = k
      · simp [setField, lookupField, h]
      · simp [setField, lookupField, h, ih]

theorem lookupField_setField_other (fields : List (String × Json))
    (k k2 : String) (v : Json) (h : k2 ≠ k) :
    lookupField (setField fields k v) k2 = lookupField fields k2 := by
  have hne : ¬k = k2 := fun h2 => h h2.symm
  induction fields with
  | nil => simp [setField, lookupField, hne]
  | cons kv rest ih =>
      obtain ⟨k3, v3⟩ := kv
      by_cases h3 : k3 = k
      · simp [setField, lookupField, h3, hne]
      · by_cases h4 : k3 = k2 <;>
          simp [setField, lookupField, h3, h4, hne, h, ih]

/-- Member-wise induction principle for the nested inductive `Json`. -/
def Json.recMem {P : Json → Prop}
    (hnull : P .null) (hbool : ∀ b, P (.bool b)) (hnum : ∀ n, P (.num n))
    (hstr : ∀ s, P (.str s))
    (harr : ∀ items, (∀ v ∈ items, P v) → P (.arr items))
    (hobj : ∀ fields, (∀ kv ∈ fields, P kv.2) → P (.obj fields)) :
    ∀ v, P v
  | .null => hnull
  | .bool b => hbool b
  | .num n => hnum n
  | .str s => hstr s
  | .arr items =>
      harr items fun v hv =>
        have : sizeOf v < 1 + sizeOf items := by
          have := List.sizeOf_lt_of_mem hv
          omega
        Json.recMem hnull hbool hnum hstr harr hobj v
  | .obj fields =>
      hobj fields fun kv hkv =>
        have : sizeOf kv.2 < 1 + sizeOf fields := by
          have h1 := List.sizeOf_lt_of_mem hkv
          have h2 : sizeOf kv.2 < sizeOf kv := by
            obtain ⟨a, b⟩ := kv
            simp
          omega
        Json.recMem hnull hbool hnum hstr harr hobj kv.2
termination_by v => sizeOf v

theorem digitChar_ne_nl (d : Nat) (h : d < 16) : Nat.digitChar d ≠ '\n' := by
  interval_cases d <;> decide

theorem nl_not_mem_natDigitsAux (fuel n : Nat) :
    '\n' ∉ natDigitsAux fuel n := by
  induction fuel generalizing n with
  | zero => simp [natDigitsAux]
  | succ fuel ih =>
      by_cases h : n = 0
      · simp [natDigitsAux, h]
      · have hd : n % 10 < 16 := by omega
        simp only [natDigitsAux, h, if_false, List.mem_append,
          List.mem_singleton]
        push_neg
        exact ⟨ih (n / 10), (digitChar_ne_nl _ hd).symm⟩

theorem nl_not_mem_natRepr (n : Nat) : '\n' ∉ (natRepr n).data := by
  by_cases h : n = 0
  · subst h
    decide
  · simpa [natRepr, h] using nl_not_mem_natDigitsAux (n + 1) n

theorem nl_not_mem_intRepr (n : Int) : '\n' ∉ (intRepr n).data := by
  unfold intRepr
  split_ifs with h
  · intro hm
    rw [String.data_append] at hm
    rcases List.mem_append.mp hm with h2 | h2
    · exact absurd h2 (by decide)
    · exact nl_not_mem_natRepr _ h2
  · exact nl_not_mem_natRepr _

theorem nl_not_mem_escapeChar (c : Char) : '\n' ∉ escapeChar c := by
  unfold escapeChar
  split_ifs with h1 h2 h3 h4 h5 h6 h7 h8
  · decide
  · decide
  · decide
  · decide
  · decide
  · decide
  · decide
  · simp only [List.mem_cons, List.not_mem_nil, or_false]
    push_neg
    refine ⟨by decide, by decide, by decide, by decide, ?_, ?_⟩
    · exact (digitChar_ne_nl _ (by omega)).symm
    · exact (digitChar_ne_nl _ (Nat.mod_lt _ (by omega))).symm
  · simpa using fun h => h3 h.symm

theorem nl_not_mem_quoteStr (s : String) : '\n' ∉ (quoteStr s).data := by
  intro hm
  simp only [quoteStr] at hm
  rcases List.mem_cons.mp hm with h | hm2
  · exact absurd h (by decide)
  rcases List.mem_append.mp hm2 with h | h
  · rcases List.mem_flatten.mp h with ⟨l, hl, hml⟩
    rcases List.mem_map.mp hl with ⟨c, _, rfl⟩
    exact nl_not_mem_escapeChar c hml
  · exact absurd h (by decide)

theorem nl_not_mem_serializeItems (items : List Json)
    (ih : ∀ v ∈ items, '\n' ∉ (serialize v).data) :
    '\n' ∉ (serializeItems items).data := by
  induction items with
  | nil => simp [serializeItems]
  | cons v rest ihr =>
      cases rest with
      | nil => simpa [serializeItems] using ih v (by simp)
      | cons w rest2 =>
          have h1 := ih v (by simp)
          have h2 := ihr fun u hu => ih u (List.mem_cons_of_mem _ hu)
          simp only [serializeItems, String.data_append, List.mem_append] at *
          push_neg at *
          exact ⟨⟨h1, by decide⟩, h2⟩

theorem nl_not_mem_serializeMembers (fields : List (String × Json))
    (ih : ∀ kv ∈ fields, '\n' ∉ (serialize kv.2).data) :
    '\n' ∉ (serializeMembers fields).data := by
  induction fields with
  | nil => simp [serializeMembers]
  | cons kv rest ihr =>
      obtain ⟨k, v⟩ := kv
      have h1 := ih (k, v) (by simp)
      have hq := nl_not_mem_quoteStr k
      cases rest with
      | nil =>
          simp only [serializeMembers, String.data_append, List.mem_append]
          push_neg
          exact ⟨⟨hq, by decide⟩, h1⟩
      | cons kv2 rest2 =>
          have h2 := ihr fun u hu => ih u (List.mem_cons_of_mem _ hu)
          simp only [serializeMembers, String.data_append, List.mem_append]
          push_neg
          exact ⟨⟨⟨⟨hq, by decide⟩, h1⟩, by decide⟩, h2⟩

theorem splitLines_append (xs ys : List Char) (h : '\n' ∉ xs) :
    splitLines (xs ++ '\n' :: ys) = xs :: splitLines ys := by
  induction xs with
  | nil => simp [splitLines]
  | cons c rest ih =>
      have hc : ¬c = '\n' := fun h2 => h (h2 ▸ List.mem_cons_self c rest)
      have h2 : '\n' ∉ rest := fun hm => h (List.mem_cons_of_mem _ hm)
      simp [splitLines, hc, ih h2]

theorem ndjsonOf_cons_data (v : Json) (vs : List Json) :
    (ndjsonOf (v :: vs)).data
      = (serialize v).data ++ '\n' :: (ndjsonOf vs).data := by
  show (serialize v ++ "\n" ++ ndjsonOf vs).data = _
  rw [String.data_append, String.data_append]
  simp

theorem ndjsonOf_append_singleton (vs : List Json) (d : Json) :
    ndjsonOf (vs ++ [d]) = ndjsonOf vs ++ serialize d ++ "\n" := by
  induction vs with
  | nil =>
      show serialize d ++ "\n" ++ "" = "" ++ serialize d ++ "\n"
      simp
  | cons v rest ih =>
      show serialize v ++ "\n" ++ ndjsonOf (rest ++ [d]) = _
      rw [ih]
      show _ = serialize v ++ "\n" ++ ndjsonOf rest ++ serialize d ++ "\n"
      simp [String.append_assoc]

theorem nl_not_mem_serialize (v : Json) : '\n' ∉ (serialize v).data := by
  induction v using Json.recMem with
  | hnull => decide
  | hbool b => cases b <;> decide
  | hnum n => simpa [serialize] using nl_not_mem_intRepr n
  | hstr s => simpa [serialize] using nl_not_mem_quoteStr s
  | harr items ih =>
      have := nl_not_mem_serializeItems items ih
      simp only [serialize, String.data_append, List.mem_append]
      push_neg
      exact ⟨⟨by decide, this⟩, by decide⟩
  | hobj fields ih =>
      have := nl_not_mem_serializeMembers fields ih
      simp only [serialize, String.data_append, List.mem_append]
      push_neg
      exact ⟨⟨by decide, this⟩, by decide⟩

theorem ndjsonOf_lines (vs : List Json) :
    ∀ line ∈ splitLines (ndjsonOf vs).data, line ≠ [] →
      ∃ v, (serialize v).data = line := by
  induction vs with
  | nil =>
      intro line hl hne
      have : line = [] := by simpa [ndjsonOf, splitLines] using hl
      exact absurd this hne
  | cons v rest ih =>
      intro line hl hne
      rw [ndjsonOf_cons_data,
        splitLines_append _ _ (nl_not_mem_serialize v)] at hl
      rcases List.mem_cons.mp hl with rfl | hl2
      · exact ⟨v, rfl⟩
      · exact ih line hl2 hne

theorem stepState_ndjson (port : Int) (st : ServerState) (e : Event)
    (h : ∃ vs, st.file = ndjsonOf vs) :
    ∃ vs, (stepState port st e).file = ndjsonOf vs := by
  obtain ⟨vs, hvs⟩ := h
  unfold stepState
  split
  next resp st2 heq =>
    unfold handleRequest at heq
    repeat' split at heq
    all_goals
      first
        | (injection heq with h1 h2
           subst h2
           first
             | exact ⟨vs, hvs⟩
             | exact ⟨[], rfl⟩
             | exact ⟨vs ++ [_], by rw [ndjsonOf_append_singleton, ← hvs]⟩)
        | injection heq
  next st2 heq =>
    unfold handleRequest at heq
    repeat' split at heq
    all_goals
      first
        | (injection heq with h2
           subst h2
           exact ⟨vs, hvs⟩)
        | injection heq

theorem execEvents_ndjson (port : Int) (es : List Event) (st : ServerState)
    (h : ∃ vs, st.file = ndjsonOf vs) :
    ∃ vs, (execEvents port st es).file = ndjsonOf vs := by
  induction es generalizing st with
  | nil => exact h
  | cons e rest ih =>
      have h2 := stepState_ndjson port st e h
      simpa [execEvents, List.foldl_cons] using ih (stepState port st e) h2

theorem idAdjusted_lookup_other (fields : List (String × Json)) (idTime : Int)
    (rand : String) (k : String) (h1 : k ≠ "id") :
    lookupField (idAdjusted fields idTime rand) k = lookupField fields k := by
  unfold idAdjusted
  cases h : lookupField fields "id" with
  | none => exact lookupField_setField_other _ _ _ _ h1
  | some idv =>
      by_cases ht : truthy idv
      · simp [ht]
      · simp [ht, lookupField_setField_other _ _ _ _ h1]

theorem idAdjusted_lookup_id (fields : List (String × Json)) (idTime : Int)
    (rand : String) :
    lookupField (idAdjusted fields idTime rand) "id"
      = some (match lookupField fields "id" with
              | some idv =>
                  if truthy idv then idv else .str (genId idTime rand)
              | none => .str (genId idTime rand)) := by
  unfold idAdjusted
  cases h : lookupField fields "id" with
  | none => simp [lookupField_setField_same]
  | some idv =>
      by_cases ht : truthy idv
      · simp [ht, h]
      · simp [ht, lookupField_setField_same]

theorem ingestEntry_lookup_other (fields : List (String × Json)) (idTime : Int)
    (rand : String) (ts : Int) (k : String) (h1 : k ≠ "id")
    (h2 : k ≠ "serverTimestamp") :
    lookupField (ingestEntry fields idTime rand ts) k = lookupField fields k := by
  unfold ingestEntry
  rw [lookupField_setField_other _ _ _ _ h2]
  exact idAdjusted_lookup_other _ _ _ _ h1

theorem ingestEntry_lookup_ts (fields : List (String × Json)) (idTime : Int)
    (rand : String) (ts : Int) :
    lookupField (ingestEntry fields idTime rand ts) "serverTimestamp"
      = some (.num ts) := lookupField_setField_same _ _ _

theorem ingestEntry_lookup_id (fields : List (String × Json)) (idTime : Int)
    (rand : String) (ts : Int) :
    lookupField (ingestEntry fields idTime rand ts) "id"
      = some (match lookupField fields "id" with
              | some idv =>
                  if truthy idv then idv else .str (genId idTime rand)
              | none => .str (genId idTime rand)) := by
  unfold ingestEntry
  rw [lookupField_setField_other _ _ _ _ (by decide)]
  exact idAdjusted_lookup_id _ _ _

theorem handleRequest_debug_object (port : Int) (st : ServerState)
    (body : String) (idTime : Int) (rand : String) (ts : Int)
    (fields : List (String × Json))
    (hparse : jsonParse body = some (.obj fields)) :
    handleRequest port st ⟨"POST", "/debug", body⟩ idTime rand ts true
      = .ok ⟨200, corsHeaders, "ok"⟩
          ⟨st.file ++ serialize (.obj (ingestEntry fields idTime rand ts)) ++ "\n",
           st.logCount + 1⟩ := by
  unfold handleRequest
  simp [hparse, applyMeta]

/-- Claim C1 (amended): for every request body that parses to a JSON
*object* sent via `POST /debug` (with the file write succeeding), exactly
one line is appended to the log file, that line is the serialization of a
JSON object equal to the payload except for `id` (filled by the server when
absent *or falsy*) and `serverTimestamp` (always overwritten), the
in-memory counter increases by exactly 1, and the response is the 200
success acknowledgment. -/
theorem claim_c1_ingest (port : Int) (st : ServerState) (body : String)
    (idTime : Int) (rand : String) (ts : Int) (fields : List (String × Json))
    (hparse : jsonParse body = some (.obj fields)) :
    ∃ entry : List (String × Json),
      handleRequest port st ⟨"POST", "/debug", body⟩ idTime rand ts true
        = .ok ⟨200, corsHeaders, "ok"⟩
            ⟨st.file ++ serialize (.obj entry) ++ "\n", st.logCount + 1⟩ ∧
      '\n' ∉ (serialize (Json.obj entry)).data ∧
      (∀ k, k ≠ "id" → k ≠ "serverTimestamp" →
        lookupField entry k = lookupField fields k) ∧
      lookupField entry "serverTimestamp" = some (.num ts) ∧
      lookupField entry "id"
        = some (match lookupField fields "id" with
                | some idv =>
                    if truthy idv then idv else .str (genId idTime rand)
                | none => .str (genId idTime rand)) :=
  ⟨ingestEntry fields idTime rand ts,
    handleRequest_debug_object port st body idTime rand ts fields hparse,
    nl_not_mem_serialize _,
    fun k h1 h2 => ingestEntry_lookup_other fields idTime rand ts k h1 h2,
    ingestEntry_lookup_ts fields idTime rand ts,
    ingestEntry_lookup_id fields idTime rand ts⟩

/-- Witness for C1 (amended) at the concrete payload `\x7b"a":1\x7d`. -/
theorem claim_c1_ingest_witness :
    ∃ entry : List (String × Json),
      handleRequest 3947 ⟨"", 0⟩ ⟨"POST", "/debug", "\x7b\"a\":1\x7d"⟩ 5 "ab" 7 true
        = .ok ⟨200, corsHeaders, "ok"⟩
            ⟨"" ++ serialize (.obj entry) ++ "\n", 1⟩ ∧
      '\n' ∉ (serialize (Json.obj entry)).data ∧
      (∀ k, k ≠ "id" → k ≠ "serverTimestamp" →
        lookupField entry k = lookupField [("a", Json.num 1)] k) ∧
      lookupField entry "serverTimestamp" = some (.num 7) ∧
      lookupField entry "id"
        = some (match lookupField [("a", Json.num 1)] "id" with
                | some idv =>
                    if truthy idv then idv else .str (genId 5 "ab")
                | none => .str (genId 5 "ab")) :=
  claim_c1_ingest 3947 ⟨"", 0⟩ "\x7b\"a\":1\x7d" 5 "ab" 7 [("a", Json.num 1)] rfl

/-- Claim C1 counterexample: the body `null` is syntactically valid JSON,
yet the server answers 400 and appends nothing (the claim demands a 200
acknowledgment and one appended line for *every* valid JSON body). -/
theorem claim_c1_counterexample :
    (∃ v, jsonParse "null" = some v) ∧
    handleRequest 3947 ⟨"", 0⟩ ⟨"POST", "/debug", "null"⟩ 5 "ab" 7 true
      = .ok ⟨400, corsHeaders, "Invalid JSON"⟩ ⟨"", 0⟩ ∧
    (400 : Nat) ≠ 200 :=
  ⟨⟨.null, rfl⟩, rfl, by decide⟩

/-- Claim C4 (amended): for every ingested payload that is a JSON object,
the persisted entry's id is the server-assigned
`log_` time `_` random-suffix exactly when the inbound `id` field is absent
or falsy; a caller-supplied *truthy* id value is preserved unchanged. -/
theorem claim_c4_id (port : Int) (st : ServerState) (body : String)
    (idTime : Int) (rand : String) (ts : Int) (fields : List (String × Json))
    (hparse : jsonParse body = some (.obj fields)) :
    handleRequest port st ⟨"POST", "/debug", body⟩ idTime rand ts true
      = .ok ⟨200, corsHeaders, "ok"⟩
          ⟨st.file ++ serialize (.obj (ingestEntry fields idTime rand ts)) ++ "\n",
           st.logCount + 1⟩ ∧
    (∀ idv, lookupField fields "id" = some idv → truthy idv = true →
      lookupField (ingestEntry fields idTime rand ts) "id" = some idv) ∧
    (∀ idv, lookupField fields "id" = some idv → truthy idv = false →
      lookupField (ingestEntry fields idTime rand ts) "id"
        = some (.str (genId idTime rand))) ∧
    (lookupField fields "id" = none →
      lookupField (ingestEntry fields idTime rand ts) "id"
        = some (.str (genId idTime rand))) ∧
    genId idTime rand = "log_" ++ intRepr idTime ++ "_" ++ rand := by
  refine ⟨handleRequest_debug_object port st body idTime rand ts fields hparse,
    ?_, ?_, ?_, rfl⟩
  · intro idv h ht
    rw [ingestEntry_lookup_id, h]
    simp [ht]
  · intro idv h ht
    rw [ingestEntry_lookup_id, h]
    simp [ht]
  · intro h
    rw [ingestEntry_lookup_id, h]

/-- Witness for C4 (amended) at the concrete payload `\x7b"id":"x"\x7d`. -/
theorem claim_c4_id_witness :
    handleRequest 3947 ⟨"", 0⟩ ⟨"POST", "/debug", "\x7b\"id\":\"x\"\x7d"⟩ 5 "ab" 7 true
      = .ok ⟨200, corsHeaders, "ok"⟩
          ⟨"" ++ serialize (.obj (ingestEntry [("id", Json.str "x")] 5 "ab" 7)) ++ "\n", 1⟩ ∧
    (∀ idv, lookupField [("id", Json.str "x")] "id" = some idv → truthy idv = true →
      lookupField (ingestEntry [("id", Json.str "x")] 5 "ab" 7) "id" = some idv) ∧
    (∀ idv, lookupField [("id", Json.str "x")] "id" = some idv → truthy idv = false →
      lookupField (ingestEntry [("id", Json.str "x")] 5 "ab" 7) "id"
        = some (.str (genId 5 "ab"))) ∧
    (lookupField [("id", Json.str "x")] "id" = none →
      lookupField (ingestEntry [("id", Json.str "x")] 5 "ab" 7) "id"
        = some (.str (genId 5 "ab"))) ∧
    genId 5 "ab" = "log_" ++ intRepr 5 ++ "_" ++ "ab" :=
  claim_c4_id 3947 ⟨"", 0⟩ "\x7b\"id\":\"x\"\x7d" 5 "ab" 7 [("id", Json.str "x")] rfl

/-- Claim C4 counterexample: the payload `\x7b"id":""\x7d` supplies an id
value, yet the persisted entry's id is the server-generated `log_5_ab`, not
the supplied `""` - a caller-supplied falsy id is not preserved. -/
theorem claim_c4_counterexample :
    jsonParse "\x7b\"id\":\"\"\x7d" = some (.obj [("id", .str "")]) ∧
    handleRequest 3947 ⟨"", 0⟩ ⟨"POST", "/debug", "\x7b\"id\":\"\"\x7d"⟩ 5 "ab" 7 true
      = .ok ⟨200, corsHeaders, "ok"⟩
          ⟨serialize (.obj [("id", .str "log_5_ab"), ("serverTimestamp", .num 7)]) ++ "\n",
           1⟩ ∧
    lookupField [("id", Json.str "log_5_ab"), ("serverTimestamp", Json.num 7)] "id"
      = some (.str "log_5_ab") ∧
    Json.str "log_5_ab" ≠ Json.str "" := by
  refine ⟨rfl, rfl, rfl, fun h => ?_⟩
  injection h with h2
  exact absurd h2 (by decide)

/-- Claim C6: every `POST /debug` whose body is not syntactically valid
JSON is answered with the 400 client error, and the log file and the
in-memory counter are unchanged. -/
theorem claim_c6_invalid_json (port : Int) (st : ServerState) (body : String)
    (idTime : Int) (rand : String) (ts : Int) (writeOk : Bool)
    (h : jsonParse body = none) :
    handleRequest port st ⟨"POST", "/debug", body⟩ idTime rand ts writeOk
      = .ok ⟨400, corsHeaders, "Invalid JSON"⟩ st := by
  unfold handleRequest
  simp [h]

/-- Witness for C6 at the concrete body `not json`. -/
theorem claim_c6_invalid_json_witness :
    handleRequest 3947 ⟨"", 0⟩ ⟨"POST", "/debug", "not json"⟩ 5 "ab" 7 true
      = .ok ⟨400, corsHeaders, "Invalid JSON"⟩ ⟨"", 0⟩ :=
  claim_c6_invalid_json 3947 ⟨"", 0⟩ "not json" 5 "ab" 7 true rfl

/-- Claim C10: the body consisting exactly of the valid JSON text `null`
is answered 400 with nothing appended and the counter unchanged: the
property write `data.id = ...` throws a `TypeError` on `null` and lands in
the same `catch` as a parse failure. -/
theorem claim_c10_null_body (port : Int) (st : ServerState) (idTime : Int)
    (rand : String) (ts : Int) (writeOk : Bool) :
    jsonParse "null" = some .null ∧
    handleRequest port st ⟨"POST", "/debug", "null"⟩ idTime rand ts writeOk
      = .ok ⟨400, corsHeaders, "Invalid JSON"⟩ st :=
  ⟨rfl, rfl⟩

/-- Claim C2 (amended): a storage (file-write) error during a single
`POST /debug` ingest is caught and answered with the 400 client-error
response for that call only, file and counter unchanged, and the process
keeps running; but a storage error during `POST /clear` is not caught:
the exception escapes the handler and kills the process, so no response is
produced for that call. -/
theorem claim_c2_storage_error (port : Int) (st : ServerState) (body : String)
    (idTime : Int) (rand : String) (ts : Int) (v d : Json)
    (hparse : jsonParse body = some v)
    (hmeta : applyMeta v idTime rand ts = some d) :
    handleRequest port st ⟨"POST", "/debug", body⟩ idTime rand ts false
      = .ok ⟨400, corsHeaders, "Invalid JSON"⟩ st ∧
    handleRequest port st ⟨"POST", "/clear", ""⟩ idTime rand ts false
      = .crash st := by
  constructor
  · unfold handleRequest
    simp [hparse, hmeta]
  · rfl

/-- Witness for C2 (amended) at the concrete payload `\x7b\x7d`. -/
theorem claim_c2_storage_error_witness :
    handleRequest 3947 ⟨"", 0⟩ ⟨"POST", "/debug", "\x7b\x7d"⟩ 5 "ab" 7 false
      = .ok ⟨400, corsHeaders, "Invalid JSON"⟩ ⟨"", 0⟩ ∧
    handleRequest 3947 ⟨"", 0⟩ ⟨"POST", "/clear", ""⟩ 5 "ab" 7 false
      = .crash ⟨"", 0⟩ :=
  claim_c2_storage_error 3947 ⟨"", 0⟩ "\x7b\x7d" 5 "ab" 7 (.obj [])
    (.obj (ingestEntry [] 5 "ab" 7)) rfl rfl

/-- Claim C2 counterexample: with a failing write, `POST /clear` produces
no server-error response at all - the handler ends in an uncaught exception
(process crash) - and a failing append in `POST /debug` is answered with
status 400, a client error, not a server-error (5xx) indicator. -/
theorem claim_c2_counterexample :
    handleRequest 3947 ⟨"x\n", 1⟩ ⟨"POST", "/clear", ""⟩ 5 "ab" 7 false
      = .crash ⟨"x\n", 1⟩ ∧
    handleRequest 3947 ⟨"", 0⟩ ⟨"POST", "/debug", "\x7b\x7d"⟩ 5 "ab" 7 false
      = .ok ⟨400, corsHeaders, "Invalid JSON"⟩ ⟨"", 0⟩ ∧
    ¬(500 ≤ 400) :=
  ⟨rfl, rfl, by decide⟩

/-- Claim C3 (amended): every request that is not an OPTIONS preflight, not
to `/health` (with *any* method - the route check ignores the method), not
`GET /logs`, not `POST /clear` and not `POST /debug` is answered 404 with
no effect on the log file or the counter. -/
theorem claim_c3_unknown_route (port : Int) (st : ServerState) (req : Request)
    (idTime : Int) (rand : String) (ts : Int) (writeOk : Bool)
    (h1 : req.method ≠ "OPTIONS") (h2 : req.url ≠ "/health")
    (h3 : ¬(req.url = "/logs" ∧ req.method = "GET"))
    (h4 : ¬(req.url = "/clear" ∧ req.method = "POST"))
    (h5 : ¬(req.url = "/debug" ∧ req.method = "POST")) :
    handleRequest port st req idTime rand ts writeOk
      = .ok ⟨404, corsHeaders, "Not found"⟩ st := by
  unfold handleRequest
  simp [h1, h2, h3, h4, h5]

/-- Witness for C3 (amended) at the concrete request `GET /missing`. -/
theorem claim_c3_unknown_route_witness :
    handleRequest 3947 ⟨"", 0⟩ ⟨"GET", "/missing", ""⟩ 5 "ab" 7 true
      = .ok ⟨404, corsHeaders, "Not found"⟩ ⟨"", 0⟩ :=
  claim_c3_unknown_route 3947 ⟨"", 0⟩ ⟨"GET", "/missing", ""⟩ 5 "ab" 7 true
    (by decide) (by decide) (by decide) (by decide) (by decide)

/-- Claim C3 counterexample: `POST /health` is not among the five
recognized route/method combinations listed by the claim, yet the server
answers it 200 (the `/health` route check ignores the request method), not
404. -/
theorem claim_c3_counterexample :
    handleRequest 3947 ⟨"", 0⟩ ⟨"POST", "/health", ""⟩ 5 "ab" 7 true
      = .ok ⟨200, corsHeaders ++ [("Content-Type", "application/json")],
             healthBody 3947 0⟩ ⟨"", 0⟩ ∧
    (200 : Nat) ≠ 404 :=
  ⟨rfl, by decide⟩

/-- Claim C5 (amended): every reachable `GET /logs` body - the log file
verbatim - is valid NDJSON in the sense that every non-empty line is the
serialization of one JSON *value* (not necessarily an object: a non-object
payload such as `42` is persisted as a non-object line). -/
theorem claim_c5_ndjson (port : Int) (pre : String) (es : List Event)
    (idTime : Int) (rand : String) (ts : Int) (writeOk : Bool) :
    handleRequest port (execEvents port (startup pre) es) ⟨"GET", "/logs", ""⟩
        idTime rand ts writeOk
      = .ok ⟨200, corsHeaders ++ [("Content-Type", "application/x-ndjson")],
             (execEvents port (startup pre) es).file⟩
          (execEvents port (startup pre) es) ∧
    ∀ line ∈ splitLines ((execEvents port (startup pre) es).file).data,
      line ≠ [] → ∃ v : Json, (serialize v).data = line := by
  refine ⟨rfl, fun line hl hne => ?_⟩
  obtain ⟨vs, hvs⟩ := execEvents_ndjson port es (startup pre) ⟨[], rfl⟩
  rw [hvs] at hl
  exact ndjsonOf_lines vs line hl hne

/-- Witness for C5 (amended): the line `42` of the reachable file `42\n`
is the serialization of a JSON value. -/
theorem claim_c5_ndjson_witness :
    ∃ v : Json, (serialize v).data = ['4', '2'] :=
  (claim_c5_ndjson 3947 "old" [⟨⟨"POST", "/debug", "42"⟩, 5, "ab", 7, true⟩]
      5 "ab" 7 true).2
    ['4', '2'] (by decide) (by decide)

/-- Claim C5 counterexample: after ingesting the valid JSON body `42`, the
`/logs` body is `42\n`, whose single non-empty line `42` is not the
serialization of any JSON *object* (an object's serialization starts with
an opening brace). -/
theorem claim_c5_counterexample :
    (execEvents 3947 (startup "") [⟨⟨"POST", "/debug", "42"⟩, 5, "ab", 7, true⟩]).file
      = "42\n" ∧
    ['4', '2'] ∈ splitLines ("42\n").data ∧
    ¬∃ fields : List (String × Json),
        (serialize (.obj fields)).data = ['4', '2'] := by
  refine ⟨by decide, by decide, fun ⟨fields, h⟩ => ?_⟩
  rw [show serialize (Json.obj fields)
        = "\x7b" ++ serializeMembers fields ++ "\x7d" from rfl] at h
  rw [String.data_append, String.data_append] at h
  simp at h

/-- Claim C7: `POST /clear` truncates the log file to empty and resets the
counter to zero, so an immediately following `GET /logs` returns an empty
body and `GET /health` reports `logCount` 0. -/
theorem claim_c7_clear (port : Int) (st : ServerState)
    (idTime idTime2 idTime3 : Int) (rand rand2 rand3 : String)
    (ts ts2 ts3 : Int) (w2 w3 : Bool) :
    handleRequest port st ⟨"POST", "/clear", ""⟩ idTime rand ts true
      = .ok ⟨200, corsHeaders, "Logs cleared"⟩ ⟨"", 0⟩ ∧
    handleRequest port ⟨"", 0⟩ ⟨"GET", "/logs", ""⟩ idTime2 rand2 ts2 w2
      = .ok ⟨200, corsHeaders ++ [("Content-Type", "application/x-ndjson")], ""⟩
          ⟨"", 0⟩ ∧
    handleRequest port ⟨"", 0⟩ ⟨"GET", "/health", ""⟩ idTime3 rand3 ts3 w3
      = .ok ⟨200, corsHeaders ++ [("Content-Type", "application/json")],
             healthBody port 0⟩ ⟨"", 0⟩ ∧
    healthBody port 0
      = serialize (.obj [("status", .str "ok"), ("logCount", .num 0),
                         ("port", .num port)]) :=
  ⟨rfl, rfl, rfl, rfl⟩

/-- Claim C8: at server start the log file is truncated to empty whatever
it held before, and the in-memory counter starts at zero, before any
request is handled. -/
theorem claim_c8_startup (pre : String) :
    (startup pre).file = "" ∧ (startup pre).logCount = 0 ∧
    execEvents 3947 (startup pre) [] = startup pre :=
  ⟨rfl, rfl, rfl⟩

/-- Claim C9: every response the handler produces carries
`Access-Control-Allow-Origin: *`, and every OPTIONS request, to any path,
is answered 204 with an empty body and exactly the CORS headers, leaving
the log file and counter untouched. -/
theorem claim_c9_cors (port : Int) (st : ServerState) (req : Request)
    (idTime : Int) (rand : String) (ts : Int) (writeOk : Bool)
    (resp : Response) (st2 : ServerState)
    (h : handleRequest port st req idTime rand ts writeOk = .ok resp st2) :
    ("Access-Control-Allow-Origin", "*") ∈ resp.headers ∧
    (req.method = "OPTIONS" →
      resp.status = 204 ∧ resp.body = "" ∧ resp.headers = corsHeaders ∧
      st2 = st) := by
  unfold handleRequest at h
  repeat' split at h
  all_goals
    first
      | (injection h with h1 h2
         subst h1
         subst h2
         first
           | exact ⟨by simp [corsHeaders], fun _ => ⟨rfl, rfl, rfl, rfl⟩⟩
           | exact ⟨by simp [corsHeaders], fun hm => absurd hm (by assumption)⟩)
      | cases h

/-- Witness for C9 at a concrete OPTIONS request. -/
theorem claim_c9_cors_witness :
    ("Access-Control-Allow-Origin", "*") ∈ corsHeaders ∧
    ((Request.mk "OPTIONS" "/any" "").method = "OPTIONS" →
      (204 : Nat) = 204 ∧ ("" : String) = "" ∧
      corsHeaders = corsHeaders ∧ ServerState.mk "" 0 = ServerState.mk "" 0) :=
  claim_c9_cors 3947 ⟨"", 0⟩ ⟨"OPTIONS", "/any", ""⟩ 5 "ab" 7 true
    ⟨204, corsHeaders, ""⟩ ⟨"", 0⟩ rfl
